import Mathlib

/-!
Verification of the batch image fetcher in
`emojipedia-scraper/scrape_images.py`.

The script is embedded shallowly: JSON values (as returned by `json.load`)
become an inductive type, the filesystem and the network become explicit
state / oracle parameters, and the single function `download_images`
becomes a pure function from a catalog-file state, a network oracle and an
initial filesystem to a run result (final filesystem, event trace, per-entry
outcomes, and an optional uncaught exception).  JSON numbers are modeled as
integers; response bodies are byte lists.
-/

namespace EmojiScraper

/-- JSON values as produced by `json.load`.  Objects keep their fields in
insertion order; keys are assumed unique (as in a parsed Python dict).
Numbers are modeled as integers. -/
inductive Json where
  | null
  | bool (b : Bool)
  | num (n : Int)
  | str (s : String)
  | arr (elems : List Json)
  | obj (fields : List (String × Json))

/-- Python exceptions that the script can raise, abstracted to the cases
that matter for its control flow. -/
inductive PyError where
  | fileNotFoundError
  | jsonDecodeError
  /-- An `AttributeError` from calling the named method on a value that
  does not have it (e.g. `.get` on a non-dict, `.split` on a non-string). -/
  | attributeError (method : String)
  /-- A connection error or timeout raised by `requests`. -/
  | requestError
  /-- An `HTTPError` from `response.raise_for_status()`. -/
  | httpStatusError (status : Nat)
deriving DecidableEq

/-- An HTTP response: status code and body bytes. -/
structure NetResponse where
  status : Nat
  body : List Nat
deriving DecidableEq

/-- The network oracle: what `requests.get` does for each URL.  `none`
models `requests.get` raising (connection error / timeout). -/
def Network : Type := String → Option NetResponse

/-- The filesystem: files (path to byte content, newest binding first) and
directories. -/
structure FS where
  files : List (String × List Nat)
  dirs : List String
deriving DecidableEq

/-- Python `os.path.exists`. -/
def pathExists (fs : FS) (p : String) : Bool :=
  (fs.files.lookup p).isSome || fs.dirs.contains p

/-- Python `open(p, "wb")` followed by writing `b`: (over)writes the file
at `p`. -/
def writeFile (fs : FS) (p : String) (b : List Nat) : FS :=
  ⟨(p, b) :: fs.files, fs.dirs⟩

/-- Python `os.makedirs(p, exist_ok=True)`. -/
def makeDirs (fs : FS) (p : String) : FS :=
  ⟨fs.files, p :: fs.dirs⟩

/-- The console lines printed by the script, kept structurally. -/
inductive LogLine where
  /-- The line `⚠️ No image URL for {name}`. -/
  | noImageURL (name : Json)
  /-- The line `✅ Skipping (already exists): {filename}`. -/
  | skipping (filename : String)
  /-- The line `⬇️ Downloading {name} → {filename}`. -/
  | downloading (name : Json) (filename : String)
  /-- The line `❌ Failed to download {name}: {e}`. -/
  | failedLog (name : Json) (e : PyError)

/-- Observable side effects of a run, in order. -/
inductive Event where
  | mkdirEv (path : String)
  | httpGetEv (url : String)
  | writeEv (path : String) (bytes : List Nat)
  | logEv (line : LogLine)

/-- Per-entry download outcome (the spec's `Download Outcome`). -/
inductive Outcome where
  | skipped (existingPath : String)
  | downloaded (path : String) (byteCount : Nat)
  | missingURL (key : String)
  | failed (key : String) (error : PyError)

/-- The constant `JSON_FILE = "apple_emojis.json"`. -/
def JSON_FILE : String := "apple_emojis.json"

/-- The constant `OUTPUT_DIR = "emoji_images"`. -/
def OUTPUT_DIR : String := "emoji_images"

/-- Python truthiness of a JSON value (`if not image_url:`). -/
def truthy : Json → Bool
  | .null => false
  | .bool b => b
  | .num n => decide (n ≠ 0)
  | .str s => decide (s ≠ "")
  | .arr elems => !elems.isEmpty
  | .obj fields => !fields.isEmpty

/-- Index of the last occurrence of `c` in the list (Python `str.rfind`). -/
def lastIdx (c : Char) : List Char → Option Nat
  | [] => none
  | a :: as =>
    match lastIdx c as with
    | some i => some (i + 1)
    | none => if a = c then some 0 else none

/-- The extension part of `os.path.splitext` (POSIX: `sep = '/'`,
`extsep = '.'`): the suffix from the last dot, provided the dot lies after
the last slash and the basename has a non-dot character before it. -/
def splitextExt (p : List Char) : List Char :=
  let s1 : Nat :=
    match lastIdx '/' p with
    | some i => i + 1
    | none => 0
  match lastIdx '.' p with
  | none => []
  | some d =>
    if s1 ≤ d ∧ ((p.drop s1).take (d - s1)).any (fun ch => ch != '.') then
      p.drop d
    else []

/-- Lines 26-28 of the script:
`os.path.splitext(image_url.split("?")[0])[1]`, then the `".png"`
default. -/
def deriveExt (url : String) : String :=
  let e := splitextExt (url.data.takeWhile (fun ch => ch != '?'))
  if e.isEmpty then ".png" else String.mk e

/-- The derived output filename `filename = f"{key}{ext}"`. -/
def deriveFilename (key url : String) : String :=
  key ++ deriveExt url

/-- The destination `filepath = os.path.join(OUTPUT_DIR, filename)`. -/
def filePath (key url : String) : String :=
  OUTPUT_DIR ++ "/" ++ deriveFilename key url

/-- The display name used in log lines: `name = info.get("name", key)`. -/
def displayName (key : String) (fields : List (String × Json)) : Json :=
  (fields.lookup "name").getD (.str key)

/-- Result of processing a single catalog entry: the filesystem afterwards,
the emitted events, and either an outcome or an uncaught exception. -/
structure EntryResult where
  fs : FS
  events : List Event
  result : Except PyError Outcome

/-- The body of the `for key, info in data.items():` loop (lines 17-46 of
the script) for one entry.  `info.get` on a non-dict raises
`AttributeError`, as does `.split` on a truthy non-string image value;
both happen outside the `try` block.  Inside the `try` block,
`requests.get` raising and `raise_for_status` (for statuses 400-599) are
caught and logged. -/
def processEntry (net : Network) (fs : FS) (key : String) (info : Json) :
    EntryResult :=
  match info with
  | .obj fields =>
    let name := displayName key fields
    let image := fields.lookup "image"
    if truthy (image.getD .null) = false then
      ⟨fs, [.logEv (.noImageURL name)], .ok (.missingURL key)⟩
    else
      match image with
      | some (.str url) =>
        let filename := deriveFilename key url
        let filepath := OUTPUT_DIR ++ "/" ++ filename
        if pathExists fs filepath then
          ⟨fs, [.logEv (.skipping filename)], .ok (.skipped filepath)⟩
        else
          match net url with
          | none =>
            ⟨fs,
             [.logEv (.downloading name filename), .httpGetEv url,
              .logEv (.failedLog name .requestError)],
             .ok (.failed key .requestError)⟩
          | some resp =>
            if 400 ≤ resp.status ∧ resp.status < 600 then
              ⟨fs,
               [.logEv (.downloading name filename), .httpGetEv url,
                .logEv (.failedLog name (.httpStatusError resp.status))],
               .ok (.failed key (.httpStatusError resp.status))⟩
            else
              ⟨writeFile fs filepath resp.body,
               [.logEv (.downloading name filename), .httpGetEv url,
                .writeEv filepath resp.body],
               .ok (.downloaded filepath resp.body.length)⟩
      | _ => ⟨fs, [], .error (.attributeError "split")⟩
  | _ => ⟨fs, [], .error (.attributeError "get")⟩

/-- State of a whole run: final filesystem, event trace, the outcomes of
the entries processed so far, and the uncaught exception if one aborted
the run. -/
structure RunState where
  fs : FS
  events : List Event
  outcomes : List Outcome
  err : Option PyError

/-- The `for` loop over `data.items()`: entries are processed in order; an
uncaught exception aborts the loop, leaving the remaining entries
unprocessed. -/
def runEntries (net : Network) : FS → List (String × Json) → RunState
  | fs, [] => ⟨fs, [], [], none⟩
  | fs, (key, info) :: rest =>
    match processEntry net fs key info with
    | ⟨fs2, evs, .error e⟩ => ⟨fs2, evs, [], some e⟩
    | ⟨fs2, evs, .ok o⟩ =>
      ⟨(runEntries net fs2 rest).fs, evs ++ (runEntries net fs2 rest).events,
       o :: (runEntries net fs2 rest).outcomes, (runEntries net fs2 rest).err⟩

/-- The on-disk catalog file, abstracted to what `open` + `json.load`
yields on it: missing file (`FileNotFoundError`), unparseable content
(`json.JSONDecodeError`), or a parsed JSON value. -/
inductive CatalogFile where
  | missing
  | invalid
  | parsed (j : Json)

/-- The function `download_images()` (lines 9-46): make the output
directory, load the catalog, then run the per-entry loop.  Iterating `.items()` on a non-dict
raises `AttributeError`. -/
def download_images (catalog : CatalogFile) (net : Network) (fs : FS) :
    RunState :=
  match catalog with
  | .missing =>
    ⟨makeDirs fs OUTPUT_DIR, [.mkdirEv OUTPUT_DIR], [], some .fileNotFoundError⟩
  | .invalid =>
    ⟨makeDirs fs OUTPUT_DIR, [.mkdirEv OUTPUT_DIR], [], some .jsonDecodeError⟩
  | .parsed (.obj entries) =>
    ⟨(runEntries net (makeDirs fs OUTPUT_DIR) entries).fs,
     .mkdirEv OUTPUT_DIR :: (runEntries net (makeDirs fs OUTPUT_DIR) entries).events,
     (runEntries net (makeDirs fs OUTPUT_DIR) entries).outcomes,
     (runEntries net (makeDirs fs OUTPUT_DIR) entries).err⟩
  | .parsed _ =>
    ⟨makeDirs fs OUTPUT_DIR, [.mkdirEv OUTPUT_DIR], [],
     some (.attributeError "items")⟩

/-! ## Basic lemmas about the filesystem model -/

theorem lookup_writeFile_of_lookup {fs : FS} {p q : String} {b c : List Nat}
    (h : fs.files.lookup q = some c) (hp : pathExists fs p = false) :
    ((writeFile fs p b).files).lookup q = some c := by
  simp only [writeFile, List.lookup]
  rcases hq : q == p with _ | _
  · simpa using h
  · exfalso
    have : q = p := by simpa using hq
    subst this
    simp [pathExists, h] at hp

theorem pathExists_writeFile_mono {fs : FS} {p q : String} {b : List Nat}
    (h : pathExists fs q = true) :
    pathExists (writeFile fs p b) q = true := by
  simp only [pathExists, writeFile, List.lookup] at h ⊢
  rcases hq : q == p with _ | _
  · simpa using h
  · simp

theorem pathExists_makeDirs_mono {fs : FS} {p q : String}
    (h : pathExists fs q = true) :
    pathExists (makeDirs fs p) q = true := by
  simp only [pathExists, makeDirs] at h ⊢
  rcases h' : (fs.files.lookup q).isSome with _ | _ <;>
    simp [h'] at h ⊢ <;> simp [h]

/-! ## Per-entry and per-run preservation lemmas -/

/-- Processing one entry never changes or removes an existing file: every
write is guarded by the `os.path.exists` check. -/
theorem processEntry_preserves_file (net : Network) (key : String)
    (info : Json) {fs : FS} {q : String} {c : List Nat}
    (h : fs.files.lookup q = some c) :
    (((processEntry net fs key info).fs).files).lookup q = some c := by
  unfold processEntry
  cases info <;> simp only [] <;> try exact h
  split
  · exact h
  · split
    · split
      · exact h
      · split
        · exact h
        · split
          · exact h
          · exact lookup_writeFile_of_lookup h (by simp_all)
    · exact h

/-- Processing one entry never deletes a path. -/
theorem processEntry_preserves_exists (net : Network) (key : String)
    (info : Json) {fs : FS} {q : String}
    (h : pathExists fs q = true) :
    pathExists (processEntry net fs key info).fs q = true := by
  unfold processEntry
  cases info <;> simp only [] <;> try exact h
  split
  · exact h
  · split
    · split
      · exact h
      · split
        · exact h
        · split
          · exact h
          · exact pathExists_writeFile_mono h
    · exact h

/-- Processing one entry does not touch directories. -/
theorem processEntry_dirs (net : Network) (fs : FS) (key : String)
    (info : Json) :
    ((processEntry net fs key info).fs).dirs = fs.dirs := by
  unfold processEntry
  cases info <;> simp only [] <;> try rfl
  split
  · rfl
  · split
    · split
      · rfl
      · split
        · rfl
        · split <;> rfl
    · rfl

theorem runEntries_nil (net : Network) (fs : FS) :
    runEntries net fs [] = ⟨fs, [], [], none⟩ := rfl

theorem runEntries_cons (net : Network) (fs : FS) (key : String)
    (info : Json) (rest : List (String × Json)) :
    runEntries net fs ((key, info) :: rest) =
      match processEntry net fs key info with
      | ⟨fs2, evs, .error e⟩ => ⟨fs2, evs, [], some e⟩
      | ⟨fs2, evs, .ok o⟩ =>
        ⟨(runEntries net fs2 rest).fs, evs ++ (runEntries net fs2 rest).events,
         o :: (runEntries net fs2 rest).outcomes,
         (runEntries net fs2 rest).err⟩ := rfl

theorem runEntries_cons_ok {net : Network} {fs fs2 : FS} {key : String}
    {info : Json} {evs : List Event} {o : Outcome}
    (rest : List (String × Json))
    (heq : processEntry net fs key info = ⟨fs2, evs, .ok o⟩) :
    runEntries net fs ((key, info) :: rest) =
      ⟨(runEntries net fs2 rest).fs, evs ++ (runEntries net fs2 rest).events,
       o :: (runEntries net fs2 rest).outcomes,
       (runEntries net fs2 rest).err⟩ := by
  rw [runEntries_cons, heq]

theorem runEntries_cons_error {net : Network} {fs fs2 : FS} {key : String}
    {info : Json} {evs : List Event} {e : PyError}
    (rest : List (String × Json))
    (heq : processEntry net fs key info = ⟨fs2, evs, .error e⟩) :
    runEntries net fs ((key, info) :: rest) = ⟨fs2, evs, [], some e⟩ := by
  rw [runEntries_cons, heq]

/-- The loop never changes or removes an existing file. -/
theorem runEntries_preserves_file {net : Network} {q : String} {c : List Nat} :
    ∀ {entries : List (String × Json)} {fs : FS},
      fs.files.lookup q = some c →
      (((runEntries net fs entries).fs).files).lookup q = some c
  | [], _, h => h
  | (key, info) :: rest, fs, h => by
    have h1 := processEntry_preserves_file net key info h
    rw [runEntries_cons]
    split
    · next fs2 evs e heq =>
      rw [heq] at h1
      exact h1
    · next fs2 evs o heq =>
      rw [heq] at h1
      exact runEntries_preserves_file h1

/-- The loop never deletes a path. -/
theorem runEntries_preserves_exists {net : Network} {q : String} :
    ∀ {entries : List (String × Json)} {fs : FS},
      pathExists fs q = true →
      pathExists (runEntries net fs entries).fs q = true
  | [], _, h => h
  | (key, info) :: rest, fs, h => by
    have h1 := processEntry_preserves_exists net key info h
    rw [runEntries_cons]
    split
    · next fs2 evs e heq =>
      rw [heq] at h1
      exact h1
    · next fs2 evs o heq =>
      rw [heq] at h1
      exact runEntries_preserves_exists h1

/-- Splitting the loop at an entry boundary, provided the first part does
not raise. -/
theorem runEntries_append {net : Network} :
    ∀ {l1 : List (String × Json)} {fs : FS} (l2 : List (String × Json)),
      (runEntries net fs l1).err = none →
      runEntries net fs (l1 ++ l2) =
        ⟨(runEntries net (runEntries net fs l1).fs l2).fs,
         (runEntries net fs l1).events ++
           (runEntries net (runEntries net fs l1).fs l2).events,
         (runEntries net fs l1).outcomes ++
           (runEntries net (runEntries net fs l1).fs l2).outcomes,
         (runEntries net (runEntries net fs l1).fs l2).err⟩
  | [], fs, l2, _ => by simp [runEntries]
  | (key, info) :: rest, fs, l2, h => by
    rw [runEntries_cons] at h
    split at h
    · simp at h
    · next fs2 evs o heq =>
      simp only at h
      rw [List.cons_append, runEntries_cons_ok (rest ++ l2) heq,
        runEntries_cons_ok rest heq]
      rw [runEntries_append l2 h]
      simp

/-! ## Filename derivation, spec-side

A second derivation that follows the spec's words ("extracts the URL's
path component (discarding any query string), takes its filename
extension; if no extension is present, defaults to `.png`; returns
`key + extension`"), phrased via the basename of the path, to be compared
with the source-side `deriveFilename`. -/

/-- Spec-side: the URL up to (excluding) the query string. -/
def specPathBeforeQuery (url : List Char) : List Char :=
  url.takeWhile (fun ch => ch != '?')

/-- Spec-side: the final path segment (after the last slash). -/
def specBasename (p : List Char) : List Char :=
  match lastIdx '/' p with
  | some i => p.drop (i + 1)
  | none => p

/-- Spec-side: the filename extension of a basename: the suffix from the
last dot, provided a non-dot character precedes that dot. -/
def specExtOfBasename (b : List Char) : List Char :=
  match lastIdx '.' b with
  | none => []
  | some d => if (b.take d).any (fun ch => ch != '.') then b.drop d else []

/-- Spec-side filename derivation, following the spec's words. -/
def spec_derive_filename (key url : String) : String :=
  let e := specExtOfBasename (specBasename (specPathBeforeQuery url.data))
  key ++ (if e.isEmpty then ".png" else String.mk e)

theorem lastIdx_drop (c : Char) :
    ∀ (n : Nat) (l : List Char),
      lastIdx c (l.drop n) =
        match lastIdx c l with
        | some d => if n ≤ d then some (d - n) else none
        | none => none
  | 0, l => by cases h : lastIdx c l <;> simp [h]
  | n + 1, [] => by simp [lastIdx]
  | n + 1, a :: as => by
    have ih := lastIdx_drop c n as
    simp only [List.drop_succ_cons]
    rw [ih]
    show _ =
      (match
          (match lastIdx c as with
           | some i => some (i + 1)
           | none => if a = c then some 0 else none) with
        | some d => if n + 1 ≤ d then some (d - (n + 1)) else none
        | none => none)
    cases h : lastIdx c as with
    | some i =>
      simp only [h]
      by_cases hni : n ≤ i
      · rw [if_pos hni, if_pos (by omega)]
        congr 1
        omega
      · rw [if_neg hni, if_neg (by omega)]
    | none =>
      simp only [h]
      by_cases hac : a = c
      · rw [if_pos hac]
        simp
      · rw [if_neg hac]

/-- The source's extension computation agrees with the spec-side one. -/
theorem splitextExt_eq_spec (p : List Char) :
    splitextExt p = specExtOfBasename (specBasename p) := by
  unfold splitextExt specBasename specExtOfBasename
  cases hs : lastIdx '/' p with
  | none =>
    cases hd : lastIdx '.' p with
    | none => simp
    | some d => simp
  | some i =>
    have hdrop := lastIdx_drop '.' (i + 1) p
    cases hd : lastIdx '.' p with
    | none =>
      rw [hd] at hdrop
      simp only at hdrop
      simp [hdrop]
    | some d =>
      rw [hd] at hdrop
      simp only at hdrop
      by_cases hle : i + 1 ≤ d
      · rw [if_pos hle] at hdrop
        simp only [hdrop, hle, true_and]
        split
        · rw [List.drop_drop]
          congr 1
          omega
        · rfl
      · rw [if_neg hle] at hdrop
        simp only [hdrop]
        rw [if_neg (by omega)]

/-- The source-side and spec-side filename derivations agree everywhere. -/
theorem deriveFilename_eq_spec (key url : String) :
    deriveFilename key url = spec_derive_filename key url := by
  unfold deriveFilename deriveExt spec_derive_filename specPathBeforeQuery
  rw [splitextExt_eq_spec]

/-! ## Branch characterizations of `processEntry` -/

theorem truthy_str_of_ne {url : String} (h : url ≠ "") :
    truthy (.str url) = true := by
  simp [truthy, h]

theorem lookup_writeFile_self (fs : FS) (p : String) (b : List Nat) :
    ((writeFile fs p b).files).lookup p = some b := by
  simp [writeFile, List.lookup]

/-- Absent or falsy image: the entry reports a missing URL and nothing
else happens. -/
theorem processEntry_missing {fs : FS} {key : String}
    {fields : List (String × Json)} (net : Network)
    (h : truthy ((fields.lookup "image").getD .null) = false) :
    processEntry net fs key (.obj fields) =
      ⟨fs, [.logEv (.noImageURL (displayName key fields))],
       .ok (.missingURL key)⟩ := by
  unfold processEntry
  simp only []
  rw [if_pos h]

/-- Existing destination: the entry is skipped and nothing else happens. -/
theorem processEntry_skip (net : Network) {fs : FS} {key : String}
    {fields : List (String × Json)} {url : String}
    (himg : fields.lookup "image" = some (.str url)) (hne : url ≠ "")
    (hex : pathExists fs (filePath key url) = true) :
    processEntry net fs key (.obj fields) =
      ⟨fs, [.logEv (.skipping (deriveFilename key url))],
       .ok (.skipped (filePath key url))⟩ := by
  unfold processEntry
  simp only []
  rw [himg]
  simp only [Option.getD_some, truthy_str_of_ne hne]
  rw [if_neg (by simp)]
  simp only [filePath] at hex
  rw [if_pos hex]
  rfl

/-- Network failure: the entry fails, is logged, and nothing is written. -/
theorem processEntry_neterr {net : Network} {fs : FS} {key : String}
    {fields : List (String × Json)} {url : String}
    (himg : fields.lookup "image" = some (.str url)) (hne : url ≠ "")
    (hnotex : pathExists fs (filePath key url) = false)
    (hnet : net url = none) :
    processEntry net fs key (.obj fields) =
      ⟨fs,
       [.logEv (.downloading (displayName key fields) (deriveFilename key url)),
        .httpGetEv url,
        .logEv (.failedLog (displayName key fields) .requestError)],
       .ok (.failed key .requestError)⟩ := by
  unfold processEntry
  simp only []
  rw [himg]
  simp only [Option.getD_some, truthy_str_of_ne hne]
  rw [if_neg (by simp)]
  simp only [filePath] at hnotex
  rw [if_neg (by simp [hnotex]), hnet]

/-- Error HTTP status (400-599): `raise_for_status` raises, the entry
fails, is logged, and nothing is written. -/
theorem processEntry_badstatus {net : Network} {fs : FS} {key : String}
    {fields : List (String × Json)} {url : String} {resp : NetResponse}
    (himg : fields.lookup "image" = some (.str url)) (hne : url ≠ "")
    (hnotex : pathExists fs (filePath key url) = false)
    (hnet : net url = some resp)
    (hst : 400 ≤ resp.status ∧ resp.status < 600) :
    processEntry net fs key (.obj fields) =
      ⟨fs,
       [.logEv (.downloading (displayName key fields) (deriveFilename key url)),
        .httpGetEv url,
        .logEv (.failedLog (displayName key fields)
          (.httpStatusError resp.status))],
       .ok (.failed key (.httpStatusError resp.status))⟩ := by
  unfold processEntry
  simp only []
  rw [himg]
  simp only [Option.getD_some, truthy_str_of_ne hne]
  rw [if_neg (by simp)]
  simp only [filePath] at hnotex
  rw [if_neg (by simp [hnotex]), hnet]
  simp only [if_pos hst]

/-- Successful fetch: the body is written to the destination and the entry
reports a download. -/
theorem processEntry_download (net : Network) {fs : FS} {key : String}
    {fields : List (String × Json)} {url : String} {resp : NetResponse}
    (himg : fields.lookup "image" = some (.str url)) (hne : url ≠ "")
    (hnotex : pathExists fs (filePath key url) = false)
    (hnet : net url = some resp)
    (hst : ¬(400 ≤ resp.status ∧ resp.status < 600)) :
    processEntry net fs key (.obj fields) =
      ⟨writeFile fs (filePath key url) resp.body,
       [.logEv (.downloading (displayName key fields) (deriveFilename key url)),
        .httpGetEv url,
        .writeEv (filePath key url) resp.body],
       .ok (.downloaded (filePath key url) resp.body.length)⟩ := by
  unfold processEntry
  simp only []
  rw [himg]
  simp only [Option.getD_some, truthy_str_of_ne hne]
  rw [if_neg (by simp)]
  simp only [filePath] at hnotex
  rw [if_neg (by simp [hnotex]), hnet]
  simp only [if_neg hst]
  rfl

/-- Non-object record: `.get` raises `AttributeError` outside the try
block. -/
theorem processEntry_nonobject (net : Network) (fs : FS) (key : String)
    (info : Json) (h : ∀ fields, info ≠ .obj fields) :
    processEntry net fs key info = ⟨fs, [], .error (.attributeError "get")⟩ := by
  unfold processEntry
  cases info <;> first
    | rfl
    | exact absurd rfl (h _)

/-- Truthy non-string image: `.split` raises `AttributeError` outside the
try block. -/
theorem processEntry_badimage {fs : FS} {key : String}
    {fields : List (String × Json)} {v : Json} (net : Network)
    (himg : fields.lookup "image" = some v) (htr : truthy v = true)
    (hnstr : ∀ s, v ≠ .str s) :
    processEntry net fs key (.obj fields) =
      ⟨fs, [], .error (.attributeError "split")⟩ := by
  unfold processEntry
  simp only []
  rw [himg]
  simp only [Option.getD_some, htr]
  rw [if_neg (by simp)]
  cases v <;> first
    | rfl
    | exact absurd rfl (hnstr _)

/-! ## The claims -/

/-- Claim C3: the derived filename equals the key plus the extension of
the URL's path part before any query string, `.png` when none, matching
the spec-side derivation everywhere, with the two concrete examples from
the spec. -/
theorem C3_derive_filename_correct :
    (∀ key url, deriveFilename key url = spec_derive_filename key url)
    ∧ deriveFilename "grinning_face"
        "https://cdn.example.com/img/a.webp?size=72" = "grinning_face.webp"
    ∧ deriveFilename "x" "https://cdn.example.com/img/a" = "x.png" :=
  ⟨deriveFilename_eq_spec, by decide, by decide⟩

/-- Claim C5: a missing or unparseable catalog file aborts the run with an
uncaught error; the only side effect is creating the output directory
(which always precedes catalog parsing); no network request and no file
write occurs, and the file contents are untouched. -/
theorem C5_bad_catalog_aborts (net : Network) (fs : FS) :
    ((download_images .missing net fs).err = some .fileNotFoundError
      ∧ (download_images .missing net fs).events = [.mkdirEv OUTPUT_DIR]
      ∧ ((download_images .missing net fs).fs).files = fs.files)
    ∧ ((download_images .invalid net fs).err = some .jsonDecodeError
      ∧ (download_images .invalid net fs).events = [.mkdirEv OUTPUT_DIR]
      ∧ ((download_images .invalid net fs).fs).files = fs.files) :=
  ⟨⟨rfl, rfl, rfl⟩, ⟨rfl, rfl, rfl⟩⟩

/-- Claim C6: an entry whose image field is absent or the empty string
yields a MissingURL outcome, no HTTP request, no file creation, and no
uncaught error; processing continues. -/
theorem C6_missing_url (net : Network) (fs : FS) (key : String)
    (fields : List (String × Json))
    (h : fields.lookup "image" = none ∨
      fields.lookup "image" = some (.str "")) :
    (processEntry net fs key (.obj fields)).result = .ok (.missingURL key)
    ∧ (processEntry net fs key (.obj fields)).fs = fs
    ∧ (processEntry net fs key (.obj fields)).events =
        [.logEv (.noImageURL (displayName key fields))] := by
  have htr : truthy ((fields.lookup "image").getD .null) = false := by
    rcases h with h | h <;> simp [h, truthy]
  rw [processEntry_missing net htr]
  exact ⟨rfl, rfl, rfl⟩

/-- Witness for C6 at a concrete entry with no image field. -/
theorem C6_missing_url_witness :
    (processEntry (fun _ => none) ⟨[], []⟩ "k"
        (.obj [("name", Json.str "Bob")])).result
      = .ok (.missingURL "k") :=
  (C6_missing_url (fun _ => none) ⟨[], []⟩ "k" [("name", Json.str "Bob")]
    (Or.inl rfl)).1

/-- The display name carried by a log line, if any (the skip line shows
only the filename). -/
def logDisplay : LogLine → Option Json
  | .noImageURL n => some n
  | .skipping _ => none
  | .downloading n _ => some n
  | .failedLog n _ => some n

/-- Whether an event is an HTTP GET. -/
def isHttpGet : Event → Bool
  | .httpGetEv _ => true
  | _ => false

/-- Claim C8: every logged line for an entry that carries a display name
carries `record.name` when that attribute is present, and the key when it
is absent. -/
theorem C8_display_name (net : Network) (fs : FS) (key : String)
    (fields : List (String × Json)) (line : LogLine) (d : Json)
    (hmem : Event.logEv line ∈ (processEntry net fs key (.obj fields)).events)
    (hd : logDisplay line = some d) :
    d = (fields.lookup "name").getD (.str key) := by
  unfold processEntry at hmem
  simp only [] at hmem
  split at hmem
  · simp at hmem
    subst hmem
    simp_all [logDisplay, displayName]
  · split at hmem
    · split at hmem
      · simp at hmem
        subst hmem
        simp_all [logDisplay]
      · split at hmem
        · simp at hmem
          rcases hmem with rfl | rfl <;> simp_all [logDisplay, displayName]
        · split at hmem
          · simp at hmem
            rcases hmem with rfl | rfl <;> simp_all [logDisplay, displayName]
          · simp at hmem
            subst hmem
            simp_all [logDisplay, displayName]
    · simp at hmem

/-- Witness for C8 at a concrete entry whose record has a `name` field. -/
theorem C8_display_name_witness :
    Json.str "Bob" =
      (([("name", Json.str "Bob")] : List (String × Json)).lookup
        "name").getD (.str "k") :=
  C8_display_name (fun _ => none) ⟨[], []⟩ "k" [("name", .str "Bob")]
    (.noImageURL (.str "Bob")) (.str "Bob")
    (by exact List.Mem.head _) rfl

/-- Claim C9: a fetch that fails before a successful status check
(connection error, timeout, or error HTTP status) creates or modifies no
file for that entry; the destination is written only after
`raise_for_status` has succeeded, and the entry ends in a Failed
outcome. -/
theorem C9_failed_fetch_no_write (net : Network) (fs : FS) (key : String)
    (fields : List (String × Json)) (url : String)
    (himg : fields.lookup "image" = some (.str url)) (hne : url ≠ "")
    (hnotex : pathExists fs (filePath key url) = false)
    (hfail : net url = none ∨
      ∃ resp, net url = some resp ∧ 400 ≤ resp.status ∧ resp.status < 600) :
    (processEntry net fs key (.obj fields)).fs = fs
    ∧ (∃ e, (processEntry net fs key (.obj fields)).result =
        .ok (.failed key e))
    ∧ ∀ p b,
        Event.writeEv p b ∉ (processEntry net fs key (.obj fields)).events := by
  rcases hfail with hnet | ⟨resp, hnet, hst⟩
  · rw [processEntry_neterr himg hne hnotex hnet]
    refine ⟨rfl, ⟨.requestError, rfl⟩, ?_⟩
    intro p b hmem
    simp at hmem
  · rw [processEntry_badstatus himg hne hnotex hnet hst]
    refine ⟨rfl, ⟨.httpStatusError resp.status, rfl⟩, ?_⟩
    intro p b hmem
    simp at hmem

/-- Witness for C9: a concrete entry whose GET raises leaves the (empty)
filesystem untouched. -/
theorem C9_failed_fetch_no_write_witness :
    (processEntry (fun _ => none) ⟨[], []⟩ "k"
        (.obj [("image", Json.str "http://h/a.png")])).fs = ⟨[], []⟩ :=
  (C9_failed_fetch_no_write (fun _ => none) ⟨[], []⟩ "k"
    [("image", Json.str "http://h/a.png")] "http://h/a.png" rfl
    (by decide) (by decide) (Or.inl rfl)).1

/-- Claim C1: an entry with a present non-empty image URL whose derived
destination does not exist when it is processed issues exactly one HTTP
GET to that URL; on a 2xx response the destination file is written with
exactly the response body, a Downloaded outcome is emitted, and the file
still has that content after the whole run. -/
theorem C1_successful_download (net : Network) (fs0 : FS)
    (pre post : List (String × Json)) (key url : String)
    (fields : List (String × Json)) (resp : NetResponse)
    (himg : fields.lookup "image" = some (.str url)) (hne : url ≠ "")
    (hpre : (runEntries net (makeDirs fs0 OUTPUT_DIR) pre).err = none)
    (hnotex : pathExists (runEntries net (makeDirs fs0 OUTPUT_DIR) pre).fs
        (filePath key url) = false)
    (hnet : net url = some resp)
    (h2a : 200 ≤ resp.status) (h2b : resp.status < 300) :
    (processEntry net (runEntries net (makeDirs fs0 OUTPUT_DIR) pre).fs key
        (.obj fields)).result
      = .ok (.downloaded (filePath key url) resp.body.length)
    ∧ ((processEntry net (runEntries net (makeDirs fs0 OUTPUT_DIR) pre).fs key
        (.obj fields)).events).filter isHttpGet = [.httpGetEv url]
    ∧ (((download_images (.parsed (.obj (pre ++ (key, .obj fields) :: post)))
        net fs0).fs).files).lookup (filePath key url) = some resp.body := by
  have hst : ¬(400 ≤ resp.status ∧ resp.status < 600) := by omega
  have hpe := processEntry_download net himg hne hnotex hnet hst
  refine ⟨by rw [hpe], by rw [hpe]; simp [isHttpGet], ?_⟩
  unfold download_images
  simp only []
  rw [runEntries_append ((key, Json.obj fields) :: post) hpre,
    runEntries_cons_ok post hpe]
  exact runEntries_preserves_file (lookup_writeFile_self _ _ _)

/-- Witness for C1 at a one-entry catalog and a network returning 200 with
body `[7, 8]`. -/
theorem C1_successful_download_witness :
    (((download_images
        (.parsed (.obj [("k", .obj [("image", Json.str "http://h/a.png")])]))
        (fun _ => some ⟨200, [7, 8]⟩) ⟨[], []⟩).fs).files).lookup
      (filePath "k" "http://h/a.png") = some [7, 8] :=
  (C1_successful_download (fun _ => some ⟨200, [7, 8]⟩) ⟨[], []⟩ [] []
    "k" "http://h/a.png" [("image", Json.str "http://h/a.png")] ⟨200, [7, 8]⟩
    rfl (by decide) rfl (by decide) rfl (by decide) (by decide)).2.2

/-- Claim C2: an entry whose destination file exists before the run is
skipped when processed: a Skipped outcome, only the skip log line (hence
no HTTP request), and the file's content is unchanged after the whole
run. -/
theorem C2_skip_existing (net : Network) (fs0 : FS)
    (pre post : List (String × Json)) (key url : String)
    (fields : List (String × Json)) (c : List Nat)
    (himg : fields.lookup "image" = some (.str url)) (hne : url ≠ "")
    (hfile : (fs0.files).lookup (filePath key url) = some c)
    (hpre : (runEntries net (makeDirs fs0 OUTPUT_DIR) pre).err = none) :
    (processEntry net (runEntries net (makeDirs fs0 OUTPUT_DIR) pre).fs key
        (.obj fields)).result = .ok (.skipped (filePath key url))
    ∧ (processEntry net (runEntries net (makeDirs fs0 OUTPUT_DIR) pre).fs key
        (.obj fields)).events = [.logEv (.skipping (deriveFilename key url))]
    ∧ (((download_images (.parsed (.obj (pre ++ (key, .obj fields) :: post)))
        net fs0).fs).files).lookup (filePath key url) = some c := by
  have hF : (((runEntries net (makeDirs fs0 OUTPUT_DIR) pre).fs).files).lookup
      (filePath key url) = some c :=
    runEntries_preserves_file
      (show ((makeDirs fs0 OUTPUT_DIR).files).lookup _ = some c from hfile)
  have hex : pathExists (runEntries net (makeDirs fs0 OUTPUT_DIR) pre).fs
      (filePath key url) = true := by
    simp [pathExists, hF]
  have hpe := processEntry_skip net himg hne hex
  refine ⟨by rw [hpe], by rw [hpe], ?_⟩
  unfold download_images
  simp only []
  rw [runEntries_append ((key, Json.obj fields) :: post) hpre,
    runEntries_cons_ok post hpe]
  exact runEntries_preserves_file hF

/-- Witness for C2 at a one-entry catalog whose destination already holds
`[1]`. -/
theorem C2_skip_existing_witness :
    (((download_images
        (.parsed (.obj [("k", .obj [("image", Json.str "http://h/a.png")])]))
        (fun _ => some ⟨200, [7, 8]⟩)
        ⟨[("emoji_images/k.png", [1])], []⟩).fs).files).lookup
      (filePath "k" "http://h/a.png") = some [1] :=
  (C2_skip_existing (fun _ => some ⟨200, [7, 8]⟩)
    ⟨[("emoji_images/k.png", [1])], []⟩ [] [] "k" "http://h/a.png"
    [("image", Json.str "http://h/a.png")] [1]
    rfl (by decide) (by decide) rfl).2.2

/-- A network oracle returning 200 with body `[0]` for every URL. -/
def netOK : Network := fun _ => some ⟨200, [0]⟩

/-- A syntactically valid catalog whose first record is not an object. -/
def catBadRecord : Json :=
  .obj [("a", .num 5), ("b", .obj [("image", .str "http://h/b.png")])]

/-- A syntactically valid catalog whose first record has a truthy
non-string image value. -/
def catBadImage : Json :=
  .obj [("a", .obj [("image", .num 7)]),
        ("b", .obj [("image", .str "http://h/b.png")])]

/-- Claim C10: there are syntactically valid catalogs on which processing
raises an uncaught exception — a non-object record breaks the
display-name lookup, and a truthy non-string image value breaks the
extension derivation, both outside the per-entry try block — aborting the
remaining entries: entry "b" gets no outcome and the only event is the
directory creation (in particular no HTTP request). -/
theorem C10_uncaught_exception :
    ((download_images (.parsed catBadRecord) netOK ⟨[], []⟩).err
        = some (.attributeError "get")
      ∧ (download_images (.parsed catBadRecord) netOK ⟨[], []⟩).events
        = [.mkdirEv OUTPUT_DIR]
      ∧ (download_images (.parsed catBadRecord) netOK ⟨[], []⟩).outcomes = [])
    ∧ ((download_images (.parsed catBadImage) netOK ⟨[], []⟩).err
        = some (.attributeError "split")
      ∧ (download_images (.parsed catBadImage) netOK ⟨[], []⟩).events
        = [.mkdirEv OUTPUT_DIR]
      ∧ (download_images (.parsed catBadImage) netOK ⟨[], []⟩).outcomes
        = []) :=
  ⟨⟨rfl, rfl, rfl⟩, ⟨rfl, rfl, rfl⟩⟩

/-- A catalog with a record that is a bare string, not an object. -/
def catStrRecord : Json := .obj [("a", .str "oops")]

/-- Counterexample to claim C4 as stated: the catalog loads successfully,
yet processing its (non-object) record raises an uncaught
`AttributeError` instead of a caught, logged per-entry failure. -/
theorem C4_counterexample :
    (download_images (.parsed catStrRecord) netOK ⟨[], []⟩).err
      = some (.attributeError "get") := rfl

/-- Whether a JSON value is a string. -/
def isStr : Json → Bool
  | .str _ => true
  | _ => false

/-- A record of the shape the spec's data model allows: an object whose
image value, when truthy, is a string. -/
def wellTypedRecord : Json → Bool
  | .obj fields =>
    match fields.lookup "image" with
    | some v => !truthy v || isStr v
    | none => true
  | _ => false

/-- A well-typed record is always processed to an outcome, never to an
uncaught exception, whatever the network and filesystem do. -/
theorem processEntry_ok_of_wellTyped (net : Network) (fs : FS) (key : String)
    {info : Json} (h : wellTypedRecord info = true) :
    ∃ fs2 evs o, processEntry net fs key info = ⟨fs2, evs, .ok o⟩ := by
  cases info with
  | null => simp [wellTypedRecord] at h
  | bool b => simp [wellTypedRecord] at h
  | num n => simp [wellTypedRecord] at h
  | str s => simp [wellTypedRecord] at h
  | arr elems => simp [wellTypedRecord] at h
  | obj fields =>
    cases himg : fields.lookup "image" with
    | none =>
      exact ⟨_, _, _, processEntry_missing net (by simp [himg, truthy])⟩
    | some v =>
      cases htr : truthy v with
      | false =>
        exact ⟨_, _, _, processEntry_missing net (by simp [himg, htr])⟩
      | true =>
        unfold wellTypedRecord at h
        simp only [] at h
        rw [himg] at h
        simp only [htr, Bool.not_true, Bool.false_or] at h
        cases v with
        | str s =>
          have hne : s ≠ "" := by simpa [truthy] using htr
          by_cases hex : pathExists fs (filePath key s) = true
          · exact ⟨_, _, _, processEntry_skip net himg hne hex⟩
          · replace hex : pathExists fs (filePath key s) = false := by
              simpa using hex
            cases hnet : net s with
            | none => exact ⟨_, _, _, processEntry_neterr himg hne hex hnet⟩
            | some resp =>
              by_cases hst : 400 ≤ resp.status ∧ resp.status < 600
              · exact ⟨_, _, _,
                  processEntry_badstatus himg hne hex hnet hst⟩
              · exact ⟨_, _, _,
                  processEntry_download net himg hne hex hnet hst⟩
        | null => simp [isStr] at h
        | bool b => simp [isStr] at h
        | num n => simp [isStr] at h
        | arr elems => simp [isStr] at h
        | obj fields2 => simp [isStr] at h

/-- Over a catalog of well-typed records, the loop never raises and emits
one outcome per entry. -/
theorem runEntries_ok_of_wellTyped (net : Network) :
    ∀ (entries : List (String × Json)) (fs : FS),
      (∀ p ∈ entries, wellTypedRecord p.2 = true) →
      (runEntries net fs entries).err = none
      ∧ (runEntries net fs entries).outcomes.length = entries.length
  | [], _, _ => ⟨rfl, rfl⟩
  | (key, info) :: rest, fs, h => by
    obtain ⟨fs2, evs, o, hpe⟩ := processEntry_ok_of_wellTyped net fs key
      (h (key, info) (List.mem_cons_self _ _))
    rw [runEntries_cons_ok rest hpe]
    have ih := runEntries_ok_of_wellTyped net rest fs2
      (fun p hp => h p (List.mem_cons_of_mem _ hp))
    exact ⟨ih.1, by simp [ih.2]⟩

/-- Claim C4, amended: once the catalog has been loaded successfully, for
every catalog whose records are well-typed (objects whose image value,
when truthy, is a string), processing never raises an uncaught error and
every entry is processed to its own outcome; a record outside the data
model (non-object, or truthy non-string image) instead raises outside the
per-entry try block. -/
theorem C4_amended_no_uncaught_error (net : Network) (fs0 : FS)
    (entries : List (String × Json))
    (h : entries.all (fun p => wellTypedRecord p.2) = true) :
    (download_images (.parsed (.obj entries)) net fs0).err = none
    ∧ (download_images (.parsed (.obj entries)) net fs0).outcomes.length
      = entries.length := by
  unfold download_images
  simp only []
  exact runEntries_ok_of_wellTyped net entries _
    (fun p hp => by
      have := List.all_eq_true.mp h p hp
      simpa using this)

/-- Witness for the amended C4: a well-typed entry whose GET raises is
caught; the run ends with no uncaught error and one outcome. -/
theorem C4_amended_no_uncaught_error_witness :
    (download_images
        (.parsed (.obj [("a", .obj [("image", Json.str "http://h/a.png")])]))
        (fun _ => none) ⟨[], []⟩).err = none :=
  (C4_amended_no_uncaught_error (fun _ => none) ⟨[], []⟩
    [("a", .obj [("image", Json.str "http://h/a.png")])] rfl).1

/-- One-entry catalog whose download always fails. -/
def catOneEntry : Json := .obj [("a", .obj [("image", .str "http://h/a.png")])]

/-- Network oracle on which every GET raises. -/
def netDown : Network := fun _ => none

/-- Counterexample to claim C7 as stated: when an entry's fetch failed in
the first run, no file was created, so the second run (same catalog,
unchanged filesystem) retries it rather than skipping it: it issues an
HTTP GET and ends in a Failed outcome. -/
theorem C7_counterexample :
    (download_images (.parsed catOneEntry) netDown
        (download_images (.parsed catOneEntry) netDown ⟨[], []⟩).fs).outcomes
      = [.failed "a" .requestError]
    ∧ Event.httpGetEv "http://h/a.png" ∈
        (download_images (.parsed catOneEntry) netDown
          (download_images (.parsed catOneEntry) netDown ⟨[], []⟩).fs).events :=
  ⟨rfl, by exact List.Mem.tail _ (List.Mem.tail _ (List.Mem.head _))⟩

/-- Whether an outcome is Skipped or Downloaded. -/
def isSkipOrDownload : Outcome → Bool
  | .skipped _ => true
  | .downloaded _ _ => true
  | _ => false

/-- An entry whose destination already exists on the given filesystem (and
whose record has a usable URL). -/
def entrySkippable (fs : FS) (p : String × Json) : Prop :=
  ∃ fields url, p.2 = .obj fields
    ∧ fields.lookup "image" = some (.str url) ∧ url ≠ ""
    ∧ pathExists fs (filePath p.1 url) = true

/-- An entry that ends Skipped or Downloaded has a usable URL and leaves
its destination existing. -/
theorem processEntry_skippable_after {net : Network} {fs : FS} {key : String}
    {info : Json} {o : Outcome}
    (h : (processEntry net fs key info).result = .ok o)
    (hsd : isSkipOrDownload o = true) :
    ∃ fields url, info = .obj fields
      ∧ fields.lookup "image" = some (.str url) ∧ url ≠ ""
      ∧ pathExists (processEntry net fs key info).fs (filePath key url)
        = true := by
  cases info with
  | null =>
    rw [processEntry_nonobject net fs key _ (by intro f hf; cases hf)] at h
    simp at h
  | bool b =>
    rw [processEntry_nonobject net fs key _ (by intro f hf; cases hf)] at h
    simp at h
  | num n =>
    rw [processEntry_nonobject net fs key _ (by intro f hf; cases hf)] at h
    simp at h
  | str s =>
    rw [processEntry_nonobject net fs key _ (by intro f hf; cases hf)] at h
    simp at h
  | arr elems =>
    rw [processEntry_nonobject net fs key _ (by intro f hf; cases hf)] at h
    simp at h
  | obj fields =>
    cases himg : fields.lookup "image" with
    | none =>
      rw [processEntry_missing net (by simp [himg, truthy])] at h
      simp at h
      subst h
      simp [isSkipOrDownload] at hsd
    | some v =>
      cases htr : truthy v with
      | false =>
        rw [processEntry_missing net (by simp [himg, htr])] at h
        simp at h
        subst h
        simp [isSkipOrDownload] at hsd
      | true =>
        cases v with
        | str s =>
          have hne : s ≠ "" := by simpa [truthy] using htr
          by_cases hex : pathExists fs (filePath key s) = true
          · rw [processEntry_skip net himg hne hex] at h ⊢
            exact ⟨fields, s, rfl, himg, hne, hex⟩
          · replace hex : pathExists fs (filePath key s) = false := by
              simpa using hex
            cases hnet : net s with
            | none =>
              rw [processEntry_neterr himg hne hex hnet] at h
              simp at h
              subst h
              simp [isSkipOrDownload] at hsd
            | some resp =>
              by_cases hst : 400 ≤ resp.status ∧ resp.status < 600
              · rw [processEntry_badstatus himg hne hex hnet hst] at h
                simp at h
                subst h
                simp [isSkipOrDownload] at hsd
              · rw [processEntry_download net himg hne hex hnet hst] at h ⊢
                refine ⟨fields, s, rfl, himg, hne, ?_⟩
                simp [pathExists, lookup_writeFile_self]
        | null => simp [truthy] at htr
        | bool b =>
          rw [processEntry_badimage net himg htr (by intro t ht; cases ht)] at h
          simp at h
        | num n =>
          rw [processEntry_badimage net himg htr (by intro t ht; cases ht)] at h
          simp at h
        | arr elems =>
          rw [processEntry_badimage net himg htr (by intro t ht; cases ht)] at h
          simp at h
        | obj fields2 =>
          rw [processEntry_badimage net himg htr (by intro t ht; cases ht)] at h
          simp at h

/-- After an error-free run whose outcomes are all Skipped or Downloaded,
every entry's destination exists on the final filesystem. -/
theorem runEntries_all_skippable {net : Network} :
    ∀ {entries : List (String × Json)} {fs : FS},
      (runEntries net fs entries).err = none →
      (∀ o ∈ (runEntries net fs entries).outcomes,
        isSkipOrDownload o = true) →
      ∀ p ∈ entries, entrySkippable (runEntries net fs entries).fs p
  | [], _, _, _ => by simp
  | (key, info) :: rest, fs, herr, hout => by
    rcases hpe : processEntry net fs key info with ⟨fs2, evs, res⟩
    cases res with
    | error e =>
      rw [runEntries_cons_error rest hpe] at herr
      cases herr
    | ok o =>
      rw [runEntries_cons_ok rest hpe] at herr hout ⊢
      simp only [] at herr hout ⊢
      intro p hp
      rcases List.mem_cons.mp hp with rfl | hp2
      · obtain ⟨fields, url, hinfo, himg, hne, hex⟩ :=
          processEntry_skippable_after (by rw [hpe]) (hout o (by simp))
        rw [hpe] at hex
        exact ⟨fields, url, hinfo, himg, hne,
          runEntries_preserves_exists hex⟩
      · exact runEntries_all_skippable herr
          (fun o2 ho2 => hout o2 (List.mem_cons_of_mem _ ho2)) p hp2

/-- Over entries whose destinations all exist, the loop skips everything:
no error, no filesystem change, only Skipped outcomes (one per entry), and
no HTTP request or file write among the events. -/
theorem runEntries_skips_of_skippable (net : Network) :
    ∀ {entries : List (String × Json)} {fs : FS},
      (∀ p ∈ entries, entrySkippable fs p) →
      (runEntries net fs entries).err = none
      ∧ (runEntries net fs entries).fs = fs
      ∧ (∀ o ∈ (runEntries net fs entries).outcomes, ∃ pth, o = .skipped pth)
      ∧ (runEntries net fs entries).outcomes.length = entries.length
      ∧ (∀ e ∈ (runEntries net fs entries).events,
          isHttpGet e = false ∧ ∀ p b, e ≠ .writeEv p b)
  | [], fs, _ => by simp [runEntries_nil]
  | (key, info) :: rest, fs, h => by
    obtain ⟨fields, url, hinfo, himg, hne, hex⟩ :=
      h (key, info) (List.mem_cons_self _ _)
    simp only [] at hinfo
    subst hinfo
    have hpe := processEntry_skip net himg hne hex
    rw [runEntries_cons_ok rest hpe]
    have ih := runEntries_skips_of_skippable net
      (fun p hp => h p (List.mem_cons_of_mem _ hp))
    simp only []
    refine ⟨ih.1, ih.2.1, ?_, by simp [ih.2.2.2.1], ?_⟩
    · intro o ho
      rcases List.mem_cons.mp ho with rfl | ho2
      · exact ⟨_, rfl⟩
      · exact ih.2.2.1 o ho2
    · intro e he
      rcases List.mem_append.mp he with he1 | he2
      · rcases List.mem_singleton.mp he1 with rfl
        exact ⟨rfl, fun p b hne2 => by cases hne2⟩
      · exact ih.2.2.2.2 e he2

/-- Claim C7, amended: if the first run raises no error and every outcome
is Skipped or Downloaded, then a second run over the same catalog with the
unchanged filesystem skips every entry, performs no HTTP request and no
file write, produces no errors, and leaves the files untouched.  (As
stated the claim fails when the first run has Failed or MissingURL
entries: those are retried, not skipped.) -/
theorem C7_amended_second_run_skips (net1 net2 : Network) (fs0 : FS)
    (entries : List (String × Json))
    (herr : (download_images (.parsed (.obj entries)) net1 fs0).err = none)
    (hout : ((download_images (.parsed (.obj entries)) net1 fs0).outcomes).all
      isSkipOrDownload = true) :
    (download_images (.parsed (.obj entries)) net2
        (download_images (.parsed (.obj entries)) net1 fs0).fs).err = none
    ∧ (∀ o ∈ (download_images (.parsed (.obj entries)) net2
          (download_images (.parsed (.obj entries)) net1 fs0).fs).outcomes,
        ∃ pth, o = .skipped pth)
    ∧ (download_images (.parsed (.obj entries)) net2
          (download_images (.parsed (.obj entries)) net1 fs0).fs).outcomes.length
        = entries.length
    ∧ (∀ e ∈ (download_images (.parsed (.obj entries)) net2
          (download_images (.parsed (.obj entries)) net1 fs0).fs).events,
        isHttpGet e = false ∧ ∀ p b, e ≠ .writeEv p b)
    ∧ ((download_images (.parsed (.obj entries)) net2
          (download_images (.parsed (.obj entries)) net1 fs0).fs).fs).files
        = ((download_images (.parsed (.obj entries)) net1 fs0).fs).files := by
  unfold download_images at herr hout ⊢
  simp only [] at herr hout ⊢
  have hskip : ∀ p ∈ entries,
      entrySkippable
        (makeDirs (runEntries net1 (makeDirs fs0 OUTPUT_DIR) entries).fs
          OUTPUT_DIR) p := by
    intro p hp
    obtain ⟨fields, url, hinfo, himg, hne, hex⟩ :=
      runEntries_all_skippable herr (List.all_eq_true.mp hout) p hp
    exact ⟨fields, url, hinfo, himg, hne, pathExists_makeDirs_mono hex⟩
  have hrun := runEntries_skips_of_skippable net2 hskip
  refine ⟨hrun.1, hrun.2.2.1, hrun.2.2.2.1, ?_,
    by rw [hrun.2.1]; simp [makeDirs]⟩
  intro e he
  rcases List.mem_cons.mp he with rfl | he2
  · exact ⟨rfl, fun p b hne2 => by cases hne2⟩
  · exact hrun.2.2.2.2 e he2

/-- Witness for the amended C7: after a successful one-entry first run,
the second run produces no error and exactly one (skipped) outcome. -/
theorem C7_amended_second_run_skips_witness :
    (download_images (.parsed (.obj [("k", .obj [("image",
          Json.str "http://h/a.png")])])) netDown
        (download_images (.parsed (.obj [("k", .obj [("image",
          Json.str "http://h/a.png")])])) netOK ⟨[], []⟩).fs).err = none
    ∧ (download_images (.parsed (.obj [("k", .obj [("image",
          Json.str "http://h/a.png")])])) netDown
        (download_images (.parsed (.obj [("k", .obj [("image",
          Json.str "http://h/a.png")])])) netOK ⟨[], []⟩).fs).outcomes.length
      = 1 :=
  ⟨(C7_amended_second_run_skips netOK netDown ⟨[], []⟩
      [("k", .obj [("image", Json.str "http://h/a.png")])] rfl rfl).1,
   (C7_amended_second_run_skips netOK netDown ⟨[], []⟩
      [("k", .obj [("image", Json.str "http://h/a.png")])] rfl rfl).2.2.1⟩

end EmojiScraper
